import Mathlib

/-!
Verification of the Widget State & Rerun Synchronization Engine spec of this
repository against its code.

The repository sample under `src/` contains:
  - `frontend/lib/src/components/shared/BaseButton/BaseButtonTooltip.tsx`
    (the `BaseButtonTooltip` component source);
  - the ChatInput widget test suite (which exercises
    `WidgetStateManager.setStringTriggerValue` through the widget);
  - proto declarations (`SessionStatus`, `NumberInput`).

The `WidgetStateManager` engine itself (`frontend/lib/src/WidgetStateManager.ts`)
and the `ChatInput` component (`ChatInput.tsx`) are not part of the sample:
only their tests and callers are. Those parts are therefore modelled from the
spec (spec.md §3-§4.5), as marked on each definition; `BaseButtonTooltip`
is embedded from its source.
-/

namespace StreamlitWidgetState

/-- Modelled from the spec: §3 WidgetState value — "value (tagged union:
string | number | bool | trigger | array-of-bytes | …)". The
`WidgetStateManager` source is missing from `src/`; the union is taken from
the spec's data model. `trigger` is a one-shot firing flag, `strTrigger`
a one-shot firing carrying a string payload (as used by
`setStringTriggerValue` in the ChatInput tests), with `none` as its
"not fired" state. -/
inductive WValue where
  | str (s : String)
  | num (n : Int)
  | bool (b : Bool)
  | bytes (bs : List Nat)
  | trigger (fired : Bool)
  | strTrigger (data : Option String)
  deriving Repr, DecidableEq

/-- Semantic type tag of a `WValue`, used by reconciliation's type-match
check (spec §4.4 step 1 and step 4). -/
inductive WTag where
  | str | num | bool | bytes | trigger | strTrigger
  deriving Repr, DecidableEq

def WValue.tag : WValue → WTag
  | .str _ => .str
  | .num _ => .num
  | .bool _ => .bool
  | .bytes _ => .bytes
  | .trigger _ => .trigger
  | .strTrigger _ => .strTrigger

/-- Modelled from the spec: §3 TriggerState / §4.2 — the neutral
("not fired") value a trigger resets to after being captured into an
outgoing message. Non-trigger values have no neutral reset and are
returned unchanged. -/
def WValue.neutralOf : WValue → WValue
  | .trigger _ => .trigger false
  | .strTrigger _ => .strTrigger none
  | v => v

/-- Modelled from the spec: §3 WidgetDeclaration — "fields: `id`,
`formId` (optional string), `defaultValue` (typed), `disabled` (bool)".
Widget-specific extra fields are irrelevant to the claims and omitted. -/
structure WidgetDeclaration where
  id : String
  formId : Option String
  defaultValue : WValue
  disabled : Bool
  deriving Repr, DecidableEq

/-- Association-list lookup keyed on the widget id (the store's map
`id → value`). -/
def lookupVal : List (String × WValue) → String → Option WValue
  | [], _ => none
  | p :: t, k => if p.fst == k then some p.snd else lookupVal t k

/-- Keyed overwrite on an association list: removes every entry for `k`
and appends the new binding, so at most one entry per id survives
(last-write-wins, spec §4.5). -/
def upsert (l : List (String × WValue)) (k : String) (v : WValue) :
    List (String × WValue) :=
  l.filter (fun p => !(p.fst == k)) ++ [(k, v)]

/-- Write a batch of pairs into a store, left to right. -/
def writeAll (l : List (String × WValue)) (ps : List (String × WValue)) :
    List (String × WValue) :=
  ps.foldl (fun acc p => upsert acc p.fst p.snd) l

/-- First declaration for an id in a run's declaration set. -/
def declLookup : List WidgetDeclaration → String → Option WidgetDeclaration
  | [], _ => none
  | d :: t, k => if d.id == k then some d else declLookup t k

/-- Modelled from the spec: §3 FormRecord — "fields: `formId`, `memberIds`
(set of widget ids belonging to the form), `isDirty`". The pending
(unsubmitted) member values of §4.3 `recordChange` live here too. -/
structure FormRecord where
  formId : String
  memberIds : List String
  pending : List (String × WValue)
  isDirty : Bool
  deriving Repr, DecidableEq

/-- Modelled from the spec: §4.5 / §6 — one outgoing synchronization
message: "a structured delta (set of `{id, value}` pairs, optional
`fragmentId`)". -/
structure OutMsg where
  pairs : List (String × WValue)
  fragmentId : Option String
  deriving Repr, DecidableEq

/-- A pending one-shot firing scheduled by `setTriggerValue`
(spec §4.2): firings are queued, never coalesced. -/
structure PendingTrigger where
  id : String
  value : WValue
  fragmentId : Option String
  deriving Repr, DecidableEq

/-- Modelled from the spec: §2-§4 — the whole engine state:
declarations of the current run, the WidgetStateStore, the FormManager's
records, the RerunRequestDispatcher's accumulated candidates
(`pendingValues`, keyed last-write-wins) and queued trigger firings
(`pendingTriggers`), plus observable traces: `messages` (every payload
handed to `sendRerunBackMsg`) and `dirtyEvents` (every
`formsDataChanged(formId, isDirty)` call). -/
structure EngineState where
  decls : List WidgetDeclaration
  store : List (String × WValue)
  forms : List FormRecord
  pendingValues : List (String × WValue)
  pendingTriggers : List PendingTrigger
  messages : List OutMsg
  dirtyEvents : List (String × Bool)
  deriving Repr, DecidableEq

/-- Result of `get`: either a value or the "absent" marker (spec §4.1:
"never fails — an unknown id returns an 'absent' marker"). -/
inductive GetResult where
  | value (v : WValue)
  | absent
  deriving Repr, DecidableEq

/-- Modelled from the spec: §4.1 `get(id)` — "returns the stored value, or
the declared default if unset; never fails — an unknown id returns an
'absent' marker". -/
def get (s : EngineState) (id : String) : GetResult :=
  match lookupVal s.store id with
  | some v => .value v
  | none =>
    match declLookup s.decls id with
    | some d => .value d.defaultValue
    | none => .absent

/-- The form (if any) an id belongs to; a widget belongs to at most one
form (spec §3 invariants), so the first match is taken. -/
def formOfWidget (s : EngineState) (id : String) : Option String :=
  (s.forms.find? (fun f => f.memberIds.contains id)).map (fun f => f.formId)

/-- Replace the record of form `fid` in a form list. -/
def replaceForm (fs : List FormRecord) (fid : String) (f : FormRecord) :
    List FormRecord :=
  fs.map (fun g => if g.formId == fid then f else g)

/-- Modelled from the spec: §4.3 `registerMember(formId, widgetId)` —
"idempotent; adds `widgetId` to the form's member set"; the FormRecord is
created implicitly on first registration (§3 FormRecord lifecycle). -/
def registerMember (s : EngineState) (fid wid : String) : EngineState :=
  match s.forms.find? (fun f => f.formId == fid) with
  | some f =>
    if f.memberIds.contains wid then s
    else
      let f' : FormRecord := { f with memberIds := f.memberIds ++ [wid] }
      { s with forms := replaceForm s.forms fid f' }
  | none =>
    { s with forms := s.forms ++
        [{ formId := fid, memberIds := [wid], pending := [], isDirty := false }] }

/-- Modelled from the spec: §4.3 `recordChange(formId, widgetId, value)` —
"updates the pending (unsubmitted) value for the member and marks the
form dirty; does not dispatch to the network; invokes the external
'forms data changed' notification exactly once per distinct dirty
transition (false→true)". The FormRecord is created implicitly if
missing (§3). -/
def recordChange (s : EngineState) (fid wid : String) (v : WValue) :
    EngineState :=
  match s.forms.find? (fun f => f.formId == fid) with
  | some f =>
    let f' : FormRecord :=
      { f with
        memberIds := if f.memberIds.contains wid then f.memberIds
                     else f.memberIds ++ [wid],
        pending := upsert f.pending wid v,
        isDirty := true }
    { s with
      forms := replaceForm s.forms fid f',
      dirtyEvents := if f.isDirty then s.dirtyEvents
                     else s.dirtyEvents ++ [(fid, true)] }
  | none =>
    { s with
      forms := s.forms ++
        [{ formId := fid, memberIds := [wid], pending := [(wid, v)],
           isDirty := true }],
      dirtyEvents := s.dirtyEvents ++ [(fid, true)] }

/-- Modelled from the spec: §4.1 `set(id, value, {fromUi})` — "overwrites
the value for `id`. If `fromUi` is true, marks the state as a candidate
for the next outgoing message and, if the id is a member of a form,
routes the write through FormManager instead of dispatching
immediately." -/
def set (s : EngineState) (id : String) (v : WValue) (fromUi : Bool) :
    EngineState :=
  let s' := { s with store := upsert s.store id v }
  if fromUi then
    match formOfWidget s id with
    | some fid => recordChange s' fid id v
    | none => { s' with pendingValues := upsert s'.pendingValues id v }
  else s'

/-- Modelled from the spec: §4.2 `setTriggerValue(id, value, {fromUi},
fragmentId?)` — "stores the value as a trigger, immediately schedules it
for the next dispatch (bypassing form withholding — triggers are never
part of forms), and tags the outgoing message with `fragmentId` if
provided". Firings are queued and never coalesced (§4.2, §4.5). A
backend-sourced write is stored but fires nothing. -/
def setTriggerValue (s : EngineState) (id : String) (v : WValue)
    (fromUi : Bool) (fragmentId : Option String) : EngineState :=
  let s' := { s with store := upsert s.store id v }
  if fromUi then
    { s' with pendingTriggers := s'.pendingTriggers ++
        [{ id := id, value := v, fragmentId := fragmentId }] }
  else s'

/-- Modelled from the spec: the `setStringTriggerValue` entry point the
ChatInput tests call — a trigger write whose payload is a string, routed
through the trigger contract of §4.2. -/
def setStringTriggerValue (s : EngineState) (id : String) (data : String)
    (fromUi : Bool) (fragmentId : Option String) : EngineState :=
  setTriggerValue s id (.strTrigger (some data)) fromUi fragmentId

/-- Modelled from the spec: §4.3 `submit(formId)` — "atomically takes all
pending member values, writes them into WidgetStateStore as `fromUi`
state, clears dirtiness, and triggers a single dispatch covering the
whole form. If the form has no pending changes, submit still dispatches
the form's trigger widget ... but does not imply non-trigger members
changed." `trigId` is the form's submit-trigger widget; its firing is
captured into the message and its stored value is reset to neutral in the
same step (§3 TriggerState). The `formsDataChanged(fid, false)`
notification fires on the dirty→clean transition (§6). A submit for an
unknown form still dispatches its trigger (§4.2 detached triggers are
tolerated). -/
def submit (s : EngineState) (fid trigId : String) : EngineState :=
  match s.forms.find? (fun f => f.formId == fid) with
  | some f =>
    let msg : OutMsg :=
      { pairs := f.pending ++ [(trigId, .trigger true)], fragmentId := none }
    let f' : FormRecord := { f with pending := [], isDirty := false }
    { s with
      store := upsert (writeAll s.store f.pending) trigId (.trigger false),
      forms := replaceForm s.forms fid f',
      messages := s.messages ++ [msg],
      dirtyEvents := if f.isDirty then s.dirtyEvents ++ [(fid, false)]
                     else s.dirtyEvents }
  | none =>
    { s with
      store := upsert s.store trigId (.trigger false),
      messages := s.messages ++
        [{ pairs := [(trigId, .trigger true)], fragmentId := none }] }

/-- Modelled from the spec: §4.5 RerunRequestDispatcher, flush step — each
queued trigger firing becomes its own message tagged with its
`fragmentId` ("trigger firings are never merged with each other",
"a message may carry an optional `fragmentId`"); the accumulated
non-form, non-trigger candidates of the tick are merged into a single
message per id, last-write-wins. As each firing is captured into its
message, the stored trigger value is reset to its neutral state in the
same step (§3 TriggerState, §4.2). -/
def flush (s : EngineState) : EngineState :=
  let trigMsgs : List OutMsg :=
    s.pendingTriggers.map (fun t =>
      { pairs := [(t.id, t.value)], fragmentId := t.fragmentId })
  let valueMsgs : List OutMsg :=
    if s.pendingValues.isEmpty then []
    else [{ pairs := s.pendingValues, fragmentId := none }]
  { s with
    store := s.pendingTriggers.foldl
      (fun acc t => upsert acc t.id t.value.neutralOf) s.store,
    pendingTriggers := [],
    pendingValues := [],
    messages := s.messages ++ trigMsgs ++ valueMsgs }

/-- Modelled from the spec: §4.4 StateReconciler, steps 1, 2 and 4 — for
each declaration of run N+1, retain the run-N value when an id with
matching type existed, otherwise (unknown id or type mismatch) seed from
the declaration's default; ids absent from N+1's declarations are
dropped. Total: a type mismatch is resolved by reseeding, no error is
produced. -/
def reconcileEntry (old : List (String × WValue))
    (d : WidgetDeclaration) : String × WValue :=
  match lookupVal old d.id with
  | some v =>
    if v.tag == d.defaultValue.tag then (d.id, v) else (d.id, d.defaultValue)
  | none => (d.id, d.defaultValue)

def reconcileStore (old : List (String × WValue))
    (ds : List WidgetDeclaration) : List (String × WValue) :=
  ds.map (reconcileEntry old)

/-- Form ids referenced by a declaration set, in first-occurrence order. -/
def formIdsOf (ds : List WidgetDeclaration) : List String :=
  (ds.filterMap (fun d => d.formId)).eraseDups

/-- Member ids a declaration set assigns to form `fid`. -/
def membersOf (ds : List WidgetDeclaration) (fid : String) : List String :=
  ds.filterMap (fun d => if d.formId == some fid then some d.id else none)

/-- Set equality of member-id lists (used by the dirtiness carry-over
check of §4.4 step 3). -/
def sameMembers (a b : List String) : Bool :=
  a.all (fun x => b.contains x) && b.all (fun x => a.contains x)

/-- Modelled from the spec: §4.4 step 3 — "Rebuild FormRecords from the
new declarations' `formId` fields, carrying over dirtiness only for forms
whose member set is unchanged; a changed member set resets dirtiness to
false". Pending values for evicted members are discarded (§4.3 edge
case); a form no declaration references is destroyed (§3 FormRecord
lifecycle). -/
def rebuildForms (old : List FormRecord) (ds : List WidgetDeclaration) :
    List FormRecord :=
  (formIdsOf ds).map (fun fid =>
    let mems := membersOf ds fid
    match old.find? (fun f => f.formId == fid) with
    | some f =>
      { formId := fid, memberIds := mems,
        pending := f.pending.filter (fun p => mems.contains p.fst),
        isDirty := if sameMembers f.memberIds mems then f.isDirty else false }
    | none =>
      { formId := fid, memberIds := mems, pending := [], isDirty := false })

/-- Modelled from the spec: §4.4 StateReconciler / §5 — build the engine
state for run N+1 from the run-N state and the new declaration set:
store reconciled per §4.4, forms rebuilt per step 3, pending local
changes for ids no longer declared discarded (§5 cancellation); queued
trigger firings are kept (detached triggers still dispatch, §4.2); the
message and notification traces are history and carry over. -/
def reconcileState (s : EngineState) (ds : List WidgetDeclaration) :
    EngineState :=
  { decls := ds,
    store := reconcileStore s.store ds,
    forms := rebuildForms s.forms ds,
    pendingValues := s.pendingValues.filter
      (fun p => (declLookup ds p.fst).isSome),
    pendingTriggers := s.pendingTriggers,
    messages := s.messages,
    dirtyEvents := s.dirtyEvents }

/-- Does a message mention an id among its pairs? -/
def msgMentions (m : OutMsg) (id : String) : Bool :=
  m.pairs.any (fun p => p.fst == id)

/-- Number of outgoing messages that mention `id`. -/
def countMentions (msgs : List OutMsg) (id : String) : Nat :=
  (msgs.filter (fun m => msgMentions m id)).length

/-- Pending (unsubmitted) member values of form `fid` ([] when the form
does not exist). -/
def pendingOf (s : EngineState) (fid : String) : List (String × WValue) :=
  match s.forms.find? (fun f => f.formId == fid) with
  | some f => f.pending
  | none => []

/-- Dirtiness of form `fid` (false when the form does not exist). -/
def dirtyOf (s : EngineState) (fid : String) : Bool :=
  match s.forms.find? (fun f => f.formId == fid) with
  | some f => f.isDirty
  | none => false

/-- A sequence of `fromUi` writes to one id within a single scheduling
tick (spec §4.5). -/
def setMany (s : EngineState) (id : String) (vs : List WValue) : EngineState :=
  vs.foldl (fun st v => set st id v true) s

/-- The engine state of a fresh session: nothing declared, stored,
pending or dispatched yet. -/
def emptyEngine : EngineState :=
  { decls := [], store := [], forms := [], pendingValues := [],
    pendingTriggers := [], messages := [], dirtyEvents := [] }

end StreamlitWidgetState

namespace ChatInputModel

open StreamlitWidgetState

/-- Local state of the chat input widget: the current text value. -/
structure ChatInputLocal where
  value : String
  deriving Repr, DecidableEq

/-- Modelled from the spec: the `ChatInput` submit handler
(`ChatInput.tsx` is not under `src/`; only its test suite is). Per the
suite: pressing Enter with text sends the value through
`setStringTriggerValue(element, value, {fromUi: true}, fragmentId)` and
clears the input ("sends and resets the value on enter",
"can set fragmentId when sending value"); with an empty input nothing is
sent and the input stays empty ("will not send an empty value on enter
if empty"). -/
def chatInputSubmit (s : EngineState) (c : ChatInputLocal) (widgetId : String)
    (fragmentId : Option String) : EngineState × ChatInputLocal :=
  if c.value == "" then (s, c)
  else (setStringTriggerValue s widgetId c.value true fragmentId,
        { value := "" })

end ChatInputModel

namespace BaseButtonModel

/-- The tooltip placement enumeration; only `AUTO` and `TOP` are used by
`BaseButtonTooltip`. -/
inductive Placement where
  | auto
  | top
  deriving Repr, DecidableEq

/-- A rendered React tree, with dedicated constructors for the elements
`BaseButtonTooltip` produces. -/
inductive ReactNode where
  | text (s : String)
  | element (tag : String) (children : List ReactNode)
  | tooltipIcon (content : String) (placement : Placement) (child : ReactNode)
  | styledTooltipNormal (child : ReactNode)
  | styledTooltipMobile (child : ReactNode)
  | fragment (children : List ReactNode)
  deriving Repr

/-- JavaScript truthiness of the optional `help` string prop: `undefined`
and `""` are falsy. -/
def helpTruthy : Option String → Bool
  | none => false
  | some s => !(s == "")

/-- Embedded from
`src/frontend/lib/src/components/shared/BaseButton/BaseButtonTooltip.tsx`:
`defaultPlacement` is `AUTO` inside the sidebar, else `TOP`; when `help`
is falsy the children are returned unchanged; otherwise the children are
wrapped in a fragment holding a `StyledTooltipNormal`-wrapped
`TooltipIcon` (placement `placement || defaultPlacement`; `Placement`
values are non-empty strings, so `||` is `getD`) and a
`StyledTooltipMobile` copy. -/
def BaseButtonTooltip (children : ReactNode) (help : Option String)
    (placement : Option Placement) (inSidebar : Bool) : ReactNode :=
  let defaultPlacement := if inSidebar then Placement.auto else Placement.top
  if !(helpTruthy help) then children
  else
    .fragment
      [.styledTooltipNormal
        (.tooltipIcon (help.getD "") (placement.getD defaultPlacement)
          children),
       .styledTooltipMobile children]

end BaseButtonModel

namespace StreamlitWidgetState

theorem lookupVal_append (a b : List (String × WValue)) (k : String) :
    lookupVal (a ++ b) k = (lookupVal a k).or (lookupVal b k) := by
  induction a with
  | nil => simp [lookupVal]
  | cons p t ih =>
    cases h : p.fst == k <;> simp [lookupVal, h, ih]

theorem lookupVal_filter_not_self (l : List (String × WValue)) (k : String) :
    lookupVal (l.filter (fun p => !(p.fst == k))) k = none := by
  induction l with
  | nil => simp [lookupVal]
  | cons p t ih =>
    cases h : p.fst == k <;> simp [List.filter_cons, h, lookupVal, ih]

theorem lookupVal_filter_not_ne (l : List (String × WValue)) (k k' : String)
    (h : ¬(k' = k)) :
    lookupVal (l.filter (fun p => !(p.fst == k))) k' = lookupVal l k' := by
  induction l with
  | nil => rfl
  | cons p t ih =>
    cases hk : p.fst == k with
    | false => simp [List.filter_cons, hk, lookupVal, ih]
    | true =>
      have hpk : p.fst = k := by simpa using hk
      have hne : (p.fst == k') = false := by
        simp [hpk]
        exact fun e => h e.symm
      simp [List.filter_cons, hk, lookupVal, hne, ih]

theorem lookupVal_upsert_self (l : List (String × WValue)) (k : String)
    (v : WValue) : lookupVal (upsert l k v) k = some v := by
  simp [upsert, lookupVal_append, lookupVal_filter_not_self, lookupVal]

theorem lookupVal_upsert_ne (l : List (String × WValue)) (k k' : String)
    (v : WValue) (h : ¬(k' = k)) :
    lookupVal (upsert l k v) k' = lookupVal l k' := by
  have hne : (k == k') = false := by
    simp
    exact fun e => h e.symm
  simp [upsert, lookupVal_append, lookupVal_filter_not_ne _ _ _ h, lookupVal,
    hne]

theorem filter_not_then_self (l : List (String × WValue)) (k : String) :
    (l.filter (fun p => !(p.fst == k))).filter (fun p => p.fst == k) = [] := by
  induction l with
  | nil => rfl
  | cons p t ih =>
    cases h : p.fst == k <;> simp [List.filter_cons, h, ih]

theorem filter_not_then_ne (l : List (String × WValue)) (k k' : String)
    (h : ¬(k' = k)) :
    (l.filter (fun p => !(p.fst == k))).filter (fun p => p.fst == k') =
      l.filter (fun p => p.fst == k') := by
  induction l with
  | nil => rfl
  | cons p t ih =>
    cases hk : p.fst == k with
    | false => simp [List.filter_cons, hk, ih]
    | true =>
      have hpk : p.fst = k := by simpa using hk
      have hne : (p.fst == k') = false := by
        simp [hpk]
        exact fun e => h e.symm
      simp [List.filter_cons, hk, hne, ih]

theorem filter_upsert_self (l : List (String × WValue)) (k : String)
    (v : WValue) :
    (upsert l k v).filter (fun p => p.fst == k) = [(k, v)] := by
  simp [upsert, List.filter_append, filter_not_then_self, List.filter_cons]

theorem filter_upsert_ne (l : List (String × WValue)) (k k' : String)
    (v : WValue) (h : ¬(k' = k)) :
    (upsert l k v).filter (fun p => p.fst == k') =
      l.filter (fun p => p.fst == k') := by
  have hne : (k == k') = false := by
    simp
    exact fun e => h e.symm
  simp [upsert, List.filter_append, filter_not_then_ne _ _ _ h,
    List.filter_cons, hne]

theorem any_eq_false_of_lookupVal_none (l : List (String × WValue))
    (k : String) (h : lookupVal l k = none) :
    l.any (fun p => p.fst == k) = false := by
  induction l with
  | nil => rfl
  | cons p t ih =>
    cases hk : p.fst == k with
    | false =>
      rw [lookupVal, hk] at h
      simp at h
      simp [List.any_cons, hk, ih h]
    | true =>
      rw [lookupVal, hk] at h
      simp at h

theorem countMentions_append (a b : List OutMsg) (id : String) :
    countMentions (a ++ b) id = countMentions a id + countMentions b id := by
  simp [countMentions, List.filter_append]

end StreamlitWidgetState

namespace StreamlitWidgetState

theorem find?_replaceForm (fs : List FormRecord) (fid : String)
    (f' : FormRecord) (h : f'.formId = fid) :
    (replaceForm fs fid f').find? (fun g => g.formId == fid) =
      (fs.find? (fun g => g.formId == fid)).map (fun _ => f') := by
  induction fs with
  | nil => rfl
  | cons g t ih =>
    cases hg : g.formId == fid with
    | false =>
      have hg' : ¬(g.formId = fid) := by simpa using hg
      have e1 : replaceForm (g :: t) fid f' = g :: replaceForm t fid f' := by
        simp [replaceForm, hg']
      rw [e1, List.find?_cons_of_neg _ (by simp [hg]),
        List.find?_cons_of_neg _ (by simp [hg]), ih]
    | true =>
      have hg' : g.formId = fid := by simpa using hg
      have e1 : replaceForm (g :: t) fid f' = f' :: replaceForm t fid f' := by
        simp [replaceForm, hg']
      rw [e1, List.find?_cons_of_pos _ (by simp [h]),
        List.find?_cons_of_pos _ (by simp [hg])]
      rfl

theorem recordChange_messages (s : EngineState) (fid wid : String)
    (v : WValue) : (recordChange s fid wid v).messages = s.messages := by
  cases h : s.forms.find? (fun f => f.formId == fid) <;>
    simp [recordChange, h]

theorem recordChange_pendingValues (s : EngineState) (fid wid : String)
    (v : WValue) :
    (recordChange s fid wid v).pendingValues = s.pendingValues := by
  cases h : s.forms.find? (fun f => f.formId == fid) <;>
    simp [recordChange, h]

theorem recordChange_pendingTriggers (s : EngineState) (fid wid : String)
    (v : WValue) :
    (recordChange s fid wid v).pendingTriggers = s.pendingTriggers := by
  cases h : s.forms.find? (fun f => f.formId == fid) <;>
    simp [recordChange, h]

theorem recordChange_dirtyEvents (s : EngineState) (fid wid : String)
    (v : WValue) :
    (recordChange s fid wid v).dirtyEvents =
      if dirtyOf s fid then s.dirtyEvents
      else s.dirtyEvents ++ [(fid, true)] := by
  cases h : s.forms.find? (fun f => f.formId == fid) <;>
    simp [recordChange, h, dirtyOf]

theorem pendingOf_recordChange (s : EngineState) (fid wid : String)
    (v : WValue) :
    pendingOf (recordChange s fid wid v) fid =
      upsert (pendingOf s fid) wid v := by
  cases h : s.forms.find? (fun f => f.formId == fid) with
  | none =>
    simp [recordChange, h, pendingOf, List.find?_append, upsert]
  | some f =>
    have hfid : f.formId = fid := by simpa using List.find?_some h
    simp [recordChange, h, pendingOf, find?_replaceForm, hfid]

theorem dirtyOf_recordChange (s : EngineState) (fid wid : String)
    (v : WValue) : dirtyOf (recordChange s fid wid v) fid = true := by
  cases h : s.forms.find? (fun f => f.formId == fid) with
  | none =>
    simp [recordChange, h, dirtyOf, List.find?_append]
  | some f =>
    have hfid : f.formId = fid := by simpa using List.find?_some h
    simp [recordChange, h, dirtyOf, find?_replaceForm, hfid]

theorem submit_messages (s : EngineState) (fid trig : String) :
    (submit s fid trig).messages =
      s.messages ++
        [{ pairs := pendingOf s fid ++ [(trig, .trigger true)],
           fragmentId := none }] := by
  cases h : s.forms.find? (fun f => f.formId == fid) <;>
    simp [submit, h, pendingOf]

theorem pendingOf_submit (s : EngineState) (fid trig : String) :
    pendingOf (submit s fid trig) fid = [] := by
  cases h : s.forms.find? (fun f => f.formId == fid) with
  | none => simp [submit, h, pendingOf]
  | some f =>
    have hfid : f.formId = fid := by simpa using List.find?_some h
    simp [submit, h, pendingOf, find?_replaceForm, hfid]

theorem dirtyOf_submit (s : EngineState) (fid trig : String) :
    dirtyOf (submit s fid trig) fid = false := by
  cases h : s.forms.find? (fun f => f.formId == fid) with
  | none => simp [submit, h, dirtyOf]
  | some f =>
    have hfid : f.formId = fid := by simpa using List.find?_some h
    simp [submit, h, dirtyOf, find?_replaceForm, hfid]

end StreamlitWidgetState

namespace StreamlitWidgetState

theorem setMany_spec (id : String) (vs : List WValue) :
    ∀ s : EngineState, formOfWidget s id = none →
      (setMany s id vs).forms = s.forms ∧
      (setMany s id vs).pendingTriggers = s.pendingTriggers ∧
      (setMany s id vs).messages = s.messages ∧
      (setMany s id vs).pendingValues =
        vs.foldl (fun l v => upsert l id v) s.pendingValues := by
  induction vs with
  | nil =>
    intro s _
    exact ⟨rfl, rfl, rfl, rfl⟩
  | cons v t ih =>
    intro s h
    have hstep : set s id v true =
        { s with store := upsert s.store id v,
                 pendingValues := upsert s.pendingValues id v } := by
      simp [set, h]
    have h2 : formOfWidget (set s id v true) id = none := by
      rw [hstep]; exact h
    have hm : setMany s id (v :: t) = setMany (set s id v true) id t := rfl
    obtain ⟨e1, e2, e3, e4⟩ := ih (set s id v true) h2
    rw [hm]
    refine ⟨?_, ?_, ?_, ?_⟩
    · rw [e1, hstep]
    · rw [e2, hstep]
    · rw [e3, hstep]
    · rw [e4, hstep]
      rfl

theorem filter_foldl_upsert (id : String) :
    ∀ (vs : List WValue) (v : WValue) (l : List (String × WValue)),
      vs.getLast? = some v →
      (vs.foldl (fun acc w => upsert acc id w) l).filter
        (fun p => p.fst == id) = [(id, v)] := by
  intro vs
  induction vs with
  | nil =>
    intro v l h
    simp at h
  | cons w t ih =>
    intro v l h
    cases t with
    | nil =>
      simp at h
      subst h
      simp [List.foldl, filter_upsert_self]
    | cons w2 t2 =>
      rw [List.getLast?_cons_cons] at h
      exact ih v (upsert l id w) h

theorem trigMsgs_filter_none (pt : List PendingTrigger) (id : String)
    (h : pt.all (fun t => !(t.id == id)) = true) :
    (pt.map (fun t =>
      ({ pairs := [(t.id, t.value)], fragmentId := t.fragmentId } : OutMsg))).filter
        (fun m => msgMentions m id) = [] := by
  induction pt with
  | nil => rfl
  | cons t r ih =>
    rw [List.all_cons, Bool.and_eq_true] at h
    obtain ⟨h1, h2⟩ := h
    have hne : ¬(t.id = id) := by simpa using h1
    have hm : (msgMentions
        { pairs := [(t.id, t.value)], fragmentId := t.fragmentId } id) =
          false := by
      simp [msgMentions, hne]
    rw [List.map_cons, List.filter_cons, hm]
    simpa using ih h2

theorem reconcileEntry_fst (old : List (String × WValue))
    (d : WidgetDeclaration) : (reconcileEntry old d).fst = d.id := by
  unfold reconcileEntry
  cases lookupVal old d.id with
  | none => rfl
  | some v =>
    by_cases hv : (v.tag == d.defaultValue.tag) = true <;> simp [hv]

theorem lookupVal_reconcileStore_none (old : List (String × WValue))
    (ds : List WidgetDeclaration) (id : String)
    (h : declLookup ds id = none) :
    lookupVal (reconcileStore old ds) id = none := by
  induction ds with
  | nil => rfl
  | cons d t ih =>
    rw [declLookup] at h
    cases hd : d.id == id with
    | true =>
      rw [hd] at h
      simp at h
    | false =>
      simp only [hd, Bool.false_eq_true, if_false] at h
      show lookupVal (reconcileEntry old d :: reconcileStore old t) id = none
      rw [lookupVal, reconcileEntry_fst, hd]
      simpa using ih h

end StreamlitWidgetState

namespace StreamlitWidgetState

theorem flush_messages (s : EngineState) :
    (flush s).messages = s.messages ++
      s.pendingTriggers.map (fun t =>
        ({ pairs := [(t.id, t.value)], fragmentId := t.fragmentId } : OutMsg)) ++
      (if s.pendingValues.isEmpty then []
       else [{ pairs := s.pendingValues, fragmentId := none }]) := rfl

theorem flush_store (s : EngineState) :
    (flush s).store = s.pendingTriggers.foldl
      (fun acc t => upsert acc t.id t.value.neutralOf) s.store := rfl

theorem flush_pendingTriggers (s : EngineState) :
    (flush s).pendingTriggers = [] := rfl

theorem flush_pendingValues (s : EngineState) :
    (flush s).pendingValues = [] := rfl

/-- Claim C1: a firing recorded via `setTriggerValue` (here through the
string-trigger entry point the ChatInput tests exercise) is included in
exactly one outgoing synchronization message; the stored trigger value is
reset to its neutral "not fired" value in the same dispatch step that
builds that message; and a further dispatch step emits nothing for it, so
no single click/submission is ever reported in two messages. -/
theorem trigger_fired_reported_exactly_once (s : EngineState)
    (id data : String) (frag : Option String)
    (hpt : s.pendingTriggers = [])
    (hpv : lookupVal s.pendingValues id = none) :
    countMentions
        (flush (setStringTriggerValue s id data true frag)).messages id =
      countMentions s.messages id + 1 ∧
    lookupVal (flush (setStringTriggerValue s id data true frag)).store id =
      some (.strTrigger none) ∧
    (flush (flush (setStringTriggerValue s id data true frag))).messages =
      (flush (setStringTriggerValue s id data true frag)).messages := by
  have e1 : (setStringTriggerValue s id data true frag).messages =
      s.messages := rfl
  have e2 : (setStringTriggerValue s id data true frag).pendingTriggers =
      s.pendingTriggers ++
        [{ id := id, value := .strTrigger (some data), fragmentId := frag }] :=
    rfl
  have e3 : (setStringTriggerValue s id data true frag).pendingValues =
      s.pendingValues := rfl
  refine ⟨?_, ?_, ?_⟩
  · rw [flush_messages, countMentions_append, countMentions_append,
      e1, e2, e3, hpt]
    cases he : s.pendingValues.isEmpty with
    | true => simp [countMentions, msgMentions, List.filter_cons, he]
    | false =>
      have hany := any_eq_false_of_lookupVal_none _ _ hpv
      simp [countMentions, msgMentions, List.filter_cons, he, hany]
  · rw [flush_store, e2, hpt]
    simp only [List.nil_append, List.foldl_cons, List.foldl_nil]
    rw [lookupVal_upsert_self]
    rfl
  · rw [flush_messages (flush (setStringTriggerValue s id data true frag)),
      flush_pendingTriggers, flush_pendingValues]
    simp

/-- Claim C5: `setTriggerValue(id, value, {fromUi}, fragmentId)` stores
the value as a trigger, schedules it for the next dispatch regardless of
any form state (the form records are untouched and no form withholding
applies), and the resulting outgoing message is tagged with exactly the
given `fragmentId`; when the fragment argument is `none` (omitted), the
outgoing message carries no fragment tag. -/
theorem trigger_dispatch_carries_fragment_tag (s : EngineState)
    (id data : String) (frag : Option String)
    (hpt : s.pendingTriggers = []) (hpv : s.pendingValues = []) :
    lookupVal (setStringTriggerValue s id data true frag).store id =
      some (.strTrigger (some data)) ∧
    (setStringTriggerValue s id data true frag).forms = s.forms ∧
    (setStringTriggerValue s id data true frag).pendingTriggers =
      s.pendingTriggers ++
        [{ id := id, value := .strTrigger (some data),
           fragmentId := frag }] ∧
    (flush (setStringTriggerValue s id data true frag)).messages =
      s.messages ++
        [{ pairs := [(id, .strTrigger (some data))], fragmentId := frag }] := by
  refine ⟨?_, rfl, rfl, ?_⟩
  · have e : (setStringTriggerValue s id data true frag).store =
        upsert s.store id (.strTrigger (some data)) := rfl
    rw [e, lookupVal_upsert_self]
  · have e1 : (setStringTriggerValue s id data true frag).messages =
        s.messages := rfl
    have e2 : (setStringTriggerValue s id data true frag).pendingTriggers =
        s.pendingTriggers ++
          [{ id := id, value := .strTrigger (some data),
             fragmentId := frag }] := rfl
    have e3 : (setStringTriggerValue s id data true frag).pendingValues =
        s.pendingValues := rfl
    rw [flush_messages, e1, e2, e3, hpt, hpv]
    simp

end StreamlitWidgetState

namespace StreamlitWidgetState

/-- Claim C3: for a non-form widget id, any nonempty sequence of `fromUi`
`set` calls within one scheduling tick followed by the tick's dispatch
step yields exactly one new outgoing message mentioning that id, and in
it the only pair for the id carries the last written value
(last-write-wins coalescing); the message carries no fragment tag. -/
theorem tick_writes_coalesce_last_write_wins (s : EngineState)
    (id : String) (vs : List WValue) (v : WValue)
    (hform : formOfWidget s id = none)
    (hlast : vs.getLast? = some v)
    (ht : s.pendingTriggers.all (fun t => !(t.id == id)) = true) :
    ∃ mv : OutMsg,
      (flush (setMany s id vs)).messages.filter (fun m => msgMentions m id) =
        s.messages.filter (fun m => msgMentions m id) ++ [mv] ∧
      mv.pairs.filter (fun p => p.fst == id) = [(id, v)] ∧
      mv.fragmentId = none ∧
      countMentions (flush (setMany s id vs)).messages id =
        countMentions s.messages id + 1 := by
  obtain ⟨e1, e2, e3, e4⟩ := setMany_spec id vs s hform
  set F := vs.foldl (fun l w => upsert l id w) s.pendingValues with hF
  have hfilter : F.filter (fun p => p.fst == id) = [(id, v)] :=
    filter_foldl_upsert id vs v s.pendingValues hlast
  have hFne : F.isEmpty = false := by
    cases hFe : F with
    | nil =>
      rw [hFe] at hfilter
      simp at hfilter
    | cons a l => rfl
  have hmsgs : (flush (setMany s id vs)).messages =
      s.messages ++ s.pendingTriggers.map (fun t =>
        ({ pairs := [(t.id, t.value)], fragmentId := t.fragmentId } :
          OutMsg)) ++ [{ pairs := F, fragmentId := none }] := by
    rw [flush_messages, e3, e2, e4, hFne]
    simp
  have hmem : (id, v) ∈ F := by
    have hm : (id, v) ∈ F.filter (fun p => p.fst == id) := by
      rw [hfilter]
      exact List.mem_singleton.mpr rfl
    exact List.mem_of_mem_filter hm
  have hany : msgMentions { pairs := F, fragmentId := none } id = true := by
    rw [msgMentions, List.any_eq_true]
    exact ⟨(id, v), hmem, by simp⟩
  have hfeq : (flush (setMany s id vs)).messages.filter
      (fun m => msgMentions m id) =
      s.messages.filter (fun m => msgMentions m id) ++
        [{ pairs := F, fragmentId := none }] := by
    rw [hmsgs, List.filter_append, List.filter_append,
      trigMsgs_filter_none _ _ ht]
    simp [List.filter_cons, hany]
  refine ⟨{ pairs := F, fragmentId := none }, hfeq, hfilter, rfl, ?_⟩
  rw [countMentions, countMentions, hfeq]
  simp

end StreamlitWidgetState

namespace StreamlitWidgetState

/-- Claim C2: for a form with members `A` and `B`, `recordChange` on `A`
then `B` dispatches no outgoing message — even the tick's dispatch step
emits nothing mentioning `A` or `B` — and a subsequent `submit` produces
exactly one outgoing message, whose only pair for `A` is its latest
pending value and whose only pair for `B` is its latest pending value. -/
theorem form_changes_withheld_until_submit (s : EngineState)
    (fid A B trig : String) (a b : WValue)
    (hAB : ¬(A = B)) (hTA : ¬(trig = A)) (hTB : ¬(trig = B))
    (hpvA : lookupVal s.pendingValues A = none)
    (hpvB : lookupVal s.pendingValues B = none)
    (htA : s.pendingTriggers.all (fun t => !(t.id == A)) = true)
    (htB : s.pendingTriggers.all (fun t => !(t.id == B)) = true) :
    (recordChange (recordChange s fid A a) fid B b).messages = s.messages ∧
    countMentions
        (flush (recordChange (recordChange s fid A a) fid B b)).messages A =
      countMentions s.messages A ∧
    countMentions
        (flush (recordChange (recordChange s fid A a) fid B b)).messages B =
      countMentions s.messages B ∧
    ∃ m : OutMsg,
      (submit (recordChange (recordChange s fid A a) fid B b) fid
          trig).messages = s.messages ++ [m] ∧
      m.pairs.filter (fun p => p.fst == A) = [(A, a)] ∧
      m.pairs.filter (fun p => p.fst == B) = [(B, b)] := by
  have em : (recordChange (recordChange s fid A a) fid B b).messages =
      s.messages := by
    rw [recordChange_messages, recordChange_messages]
  have epv : (recordChange (recordChange s fid A a) fid B b).pendingValues =
      s.pendingValues := by
    rw [recordChange_pendingValues, recordChange_pendingValues]
  have ept : (recordChange (recordChange s fid A a) fid B b).pendingTriggers =
      s.pendingTriggers := by
    rw [recordChange_pendingTriggers, recordChange_pendingTriggers]
  have hcount : ∀ id : String, lookupVal s.pendingValues id = none →
      s.pendingTriggers.all (fun t => !(t.id == id)) = true →
      countMentions
          (flush (recordChange (recordChange s fid A a) fid B b)).messages
          id = countMentions s.messages id := by
    intro id hpv ht
    rw [flush_messages, em, epv, ept, countMentions_append,
      countMentions_append]
    have h1 : countMentions (s.pendingTriggers.map (fun t =>
        ({ pairs := [(t.id, t.value)], fragmentId := t.fragmentId } :
          OutMsg))) id = 0 := by
      rw [countMentions, trigMsgs_filter_none _ _ ht]
      rfl
    rw [h1]
    cases he : s.pendingValues.isEmpty with
    | true => simp [countMentions]
    | false =>
      have hany := any_eq_false_of_lookupVal_none _ _ hpv
      simp [countMentions, msgMentions, List.filter_cons, hany]
  have hpend : pendingOf (recordChange (recordChange s fid A a) fid B b)
      fid = upsert (upsert (pendingOf s fid) A a) B b := by
    rw [pendingOf_recordChange, pendingOf_recordChange]
  have hTA' : ((trig : String) == A) = false := by
    simp
    exact hTA
  have hTB' : ((trig : String) == B) = false := by
    simp
    exact hTB
  refine ⟨em, hcount A hpvA htA, hcount B hpvB htB,
    ⟨{ pairs := upsert (upsert (pendingOf s fid) A a) B b ++
        [(trig, .trigger true)], fragmentId := none }, ?_, ?_, ?_⟩⟩
  · rw [submit_messages, hpend, em]
  · rw [List.filter_append, filter_upsert_ne _ _ _ _ hAB,
      filter_upsert_self]
    simp [List.filter_cons, hTA']
  · rw [List.filter_append, filter_upsert_self]
    simp [List.filter_cons, hTB']

end StreamlitWidgetState

namespace StreamlitWidgetState

/-- Claim C7: the external `formsDataChanged` notification fires exactly
once per distinct false→true dirtiness transition: a `recordChange` on a
clean form emits one `(fid, true)` notification; a further
`recordChange` while the form is already dirty emits none; and after
`submit` has cleared dirtiness, the next `recordChange` emits
`(fid, true)` again. -/
theorem forms_data_changed_once_per_dirty_transition (s : EngineState)
    (fid wid wid2 trig : String) (v v2 : WValue) :
    (dirtyOf s fid = false →
      (recordChange s fid wid v).dirtyEvents =
        s.dirtyEvents ++ [(fid, true)]) ∧
    (recordChange (recordChange s fid wid v) fid wid2 v2).dirtyEvents =
      (recordChange s fid wid v).dirtyEvents ∧
    (recordChange (submit (recordChange s fid wid v) fid trig) fid wid2
        v2).dirtyEvents =
      (submit (recordChange s fid wid v) fid trig).dirtyEvents ++
        [(fid, true)] := by
  refine ⟨?_, ?_, ?_⟩
  · intro h
    rw [recordChange_dirtyEvents, h]
    simp
  · rw [recordChange_dirtyEvents, dirtyOf_recordChange]
    simp
  · rw [recordChange_dirtyEvents, dirtyOf_submit]
    simp

/-- Claim C8: a second `submit` with no intervening `recordChange` is
idempotent with respect to member values — it dispatches exactly one
message whose only pair is the form's submit-trigger firing, never
re-sending the unchanged non-trigger member values. -/
theorem duplicate_submit_dispatches_only_trigger (s : EngineState)
    (fid trig : String) :
    (submit (submit s fid trig) fid trig).messages =
      (submit s fid trig).messages ++
        [{ pairs := [(trig, .trigger true)], fragmentId := none }] := by
  rw [submit_messages, pendingOf_submit]
  simp

/-- Claim C4: for an id declared in run N+1 whose store from run N holds
a value, reconciliation retains the stored value when its type tag
matches the new declaration's default and reseeds from the new
declaration's default on a mismatch; the reconciler is a total function,
so no error is surfaced in either case. -/
theorem reconcile_retains_on_type_match_reseeds_on_mismatch
    (old : List (String × WValue)) (ds : List WidgetDeclaration)
    (d : WidgetDeclaration) (id : String) (v : WValue)
    (hd : declLookup ds id = some d)
    (hold : lookupVal old id = some v) :
    lookupVal (reconcileStore old ds) id =
      some (if v.tag == d.defaultValue.tag then v else d.defaultValue) := by
  induction ds with
  | nil => simp [declLookup] at hd
  | cons e t ih =>
    rw [declLookup] at hd
    cases he : e.id == id with
    | true =>
      rw [he] at hd
      simp at hd
      subst hd
      have heid : e.id = id := by simpa using he
      have hentry : reconcileEntry old e =
          (if v.tag == e.defaultValue.tag then (e.id, v)
           else (e.id, e.defaultValue)) := by
        unfold reconcileEntry
        rw [heid, hold]
      show lookupVal (reconcileEntry old e :: reconcileStore old t) id = _
      rw [show lookupVal (reconcileEntry old e :: reconcileStore old t) id =
          if (reconcileEntry old e).fst == id
          then some (reconcileEntry old e).snd
          else lookupVal (reconcileStore old t) id from rfl,
        reconcileEntry_fst, he, hentry]
      by_cases hv : (v.tag == e.defaultValue.tag) = true <;> simp [hv]
    | false =>
      rw [he] at hd
      simp only [Bool.false_eq_true, if_false] at hd
      show lookupVal (reconcileEntry old e :: reconcileStore old t) id = _
      rw [show lookupVal (reconcileEntry old e :: reconcileStore old t) id =
          if (reconcileEntry old e).fst == id
          then some (reconcileEntry old e).snd
          else lookupVal (reconcileStore old t) id from rfl,
        reconcileEntry_fst, he]
      simp only [Bool.false_eq_true, if_false]
      exact ih hd

/-- Claim C6: `get` is total and never fails — it returns the stored
value when one is set, the declared default when the id is declared but
never assigned, and the absent marker when the id is unknown, including
after its declaration was removed between runs (reconciliation drops the
stored value, and `get` then reports absent). -/
theorem get_total_default_and_absent (s : EngineState) (id : String) :
    (∀ v, lookupVal s.store id = some v → get s id = .value v) ∧
    (∀ d, lookupVal s.store id = none → declLookup s.decls id = some d →
      get s id = .value d.defaultValue) ∧
    (lookupVal s.store id = none → declLookup s.decls id = none →
      get s id = .absent) ∧
    (∀ ds, declLookup ds id = none →
      get (reconcileState s ds) id = .absent) := by
  refine ⟨?_, ?_, ?_, ?_⟩
  · intro v h
    simp [get, h]
  · intro d h1 h2
    simp [get, h1, h2]
  · intro h1 h2
    simp [get, h1, h2]
  · intro ds h
    have h1 : lookupVal (reconcileState s ds).store id = none := by
      show lookupVal (reconcileStore s.store ds) id = none
      exact lookupVal_reconcileStore_none _ _ _ h
    have h2 : declLookup (reconcileState s ds).decls id = none := by
      show declLookup ds id = none
      exact h
    simp [get, h1, h2]

end StreamlitWidgetState

namespace BaseButtonModel

/-- Claim C9: `BaseButtonTooltip` is the identity on its children
whenever the `help` prop is absent (`undefined`) or the empty string:
the children element is returned exactly as given, with no tooltip
wrapper added. -/
theorem tooltip_identity_without_help (children : ReactNode)
    (placement : Option Placement) (inSidebar : Bool)
    (help : Option String)
    (h : help = none ∨ help = some "") :
    BaseButtonTooltip children help placement inSidebar = children := by
  rcases h with h | h <;> subst h <;> simp [BaseButtonTooltip, helpTruthy]

end BaseButtonModel

namespace ChatInputModel

open StreamlitWidgetState

/-- Claim C10: the chat input never fires its trigger for an empty
value: submitting while the input text is empty leaves the engine state
completely unchanged (no `setStringTriggerValue` effect, nothing
scheduled for dispatch) and the input remains empty. -/
theorem chat_input_suppresses_empty_submission (s : EngineState)
    (c : ChatInputLocal) (widgetId : String) (fragmentId : Option String)
    (h : c.value = "") :
    chatInputSubmit s c widgetId fragmentId = (s, c) ∧
    (chatInputSubmit s c widgetId fragmentId).2.value = "" := by
  have hb : (c.value == "") = true := by simp [h]
  constructor
  · simp [chatInputSubmit, hb]
  · simp [chatInputSubmit, hb, h]

end ChatInputModel

namespace StreamlitWidgetState

/-- Witness for C1 at a concrete input: one trigger firing from the fresh
engine is reported in exactly one message and the store holds the
neutral value afterwards. -/
theorem trigger_fired_reported_exactly_once_witness :
    countMentions
        (flush (setStringTriggerValue emptyEngine "chat" "hi" true
          none)).messages "chat" =
      countMentions emptyEngine.messages "chat" + 1 ∧
    lookupVal (flush (setStringTriggerValue emptyEngine "chat" "hi" true
        none)).store "chat" = some (.strTrigger none) ∧
    (flush (flush (setStringTriggerValue emptyEngine "chat" "hi" true
        none))).messages =
      (flush (setStringTriggerValue emptyEngine "chat" "hi" true
        none)).messages :=
  trigger_fired_reported_exactly_once emptyEngine "chat" "hi" none rfl rfl

/-- Witness for C2 at a concrete input: two members of form `f1` changed
then submitted from the fresh engine. -/
theorem form_changes_withheld_until_submit_witness :
    (recordChange (recordChange emptyEngine "f1" "nameA" (.str "Ada"))
        "f1" "nameB" (.str "Bob")).messages = emptyEngine.messages ∧
    countMentions
        (flush (recordChange (recordChange emptyEngine "f1" "nameA"
          (.str "Ada")) "f1" "nameB" (.str "Bob"))).messages "nameA" =
      countMentions emptyEngine.messages "nameA" ∧
    countMentions
        (flush (recordChange (recordChange emptyEngine "f1" "nameA"
          (.str "Ada")) "f1" "nameB" (.str "Bob"))).messages "nameB" =
      countMentions emptyEngine.messages "nameB" ∧
    ∃ m : OutMsg,
      (submit (recordChange (recordChange emptyEngine "f1" "nameA"
          (.str "Ada")) "f1" "nameB" (.str "Bob")) "f1"
          "submit_btn").messages = emptyEngine.messages ++ [m] ∧
      m.pairs.filter (fun p => p.fst == "nameA") = [("nameA", .str "Ada")] ∧
      m.pairs.filter (fun p => p.fst == "nameB") = [("nameB", .str "Bob")] :=
  form_changes_withheld_until_submit emptyEngine "f1" "nameA" "nameB"
    "submit_btn" (.str "Ada") (.str "Bob") (by decide) (by decide)
    (by decide) rfl rfl rfl rfl

/-- Witness for C3 at the spec's concrete scenario: `set(count, 1)` then
`set(count, 2)` in one tick dispatches a single message whose only pair
for `count` is `2`. -/
theorem tick_writes_coalesce_last_write_wins_witness :
    ∃ mv : OutMsg,
      (flush (setMany emptyEngine "count"
          [.num 1, .num 2])).messages.filter
          (fun m => msgMentions m "count") =
        emptyEngine.messages.filter (fun m => msgMentions m "count") ++
          [mv] ∧
      mv.pairs.filter (fun p => p.fst == "count") = [("count", .num 2)] ∧
      mv.fragmentId = none ∧
      countMentions (flush (setMany emptyEngine "count"
          [.num 1, .num 2])).messages "count" =
        countMentions emptyEngine.messages "count" + 1 :=
  tick_writes_coalesce_last_write_wins emptyEngine "count"
    [.num 1, .num 2] (.num 2) rfl (by decide) rfl

/-- Witness for C4 at the spec's concrete scenario: store `{x: 5}`
reconciled against a numeric declaration of `x` keeps `5`; against a
boolean declaration it reseeds to that declaration's default. -/
theorem reconcile_retains_reseeds_witness :
    lookupVal (reconcileStore [("x", WValue.num 5)]
        [⟨"x", none, WValue.num 0, false⟩]) "x" = some (WValue.num 5) ∧
    lookupVal (reconcileStore [("x", WValue.num 5)]
        [⟨"x", none, WValue.bool false, false⟩]) "x" =
      some (WValue.bool false) :=
  ⟨(reconcile_retains_on_type_match_reseeds_on_mismatch
      [("x", WValue.num 5)] [⟨"x", none, WValue.num 0, false⟩]
      ⟨"x", none, WValue.num 0, false⟩ "x" (WValue.num 5)
      rfl rfl).trans (by decide),
   (reconcile_retains_on_type_match_reseeds_on_mismatch
      [("x", WValue.num 5)] [⟨"x", none, WValue.bool false, false⟩]
      ⟨"x", none, WValue.bool false, false⟩ "x" (WValue.num 5)
      rfl rfl).trans (by decide)⟩

/-- Witness for C5 at a concrete input: a fragment-tagged trigger write
from the fresh engine. -/
theorem trigger_dispatch_carries_fragment_tag_witness :
    lookupVal (setStringTriggerValue emptyEngine "chat" "hello" true
        (some "frag7")).store "chat" =
      some (.strTrigger (some "hello")) ∧
    (setStringTriggerValue emptyEngine "chat" "hello" true
        (some "frag7")).forms = emptyEngine.forms ∧
    (setStringTriggerValue emptyEngine "chat" "hello" true
        (some "frag7")).pendingTriggers =
      emptyEngine.pendingTriggers ++
        [{ id := "chat", value := .strTrigger (some "hello"),
           fragmentId := some "frag7" }] ∧
    (flush (setStringTriggerValue emptyEngine "chat" "hello" true
        (some "frag7"))).messages =
      emptyEngine.messages ++
        [{ pairs := [("chat", .strTrigger (some "hello"))],
           fragmentId := some "frag7" }] :=
  trigger_dispatch_carries_fragment_tag emptyEngine "chat" "hello"
    (some "frag7") rfl rfl

/-- Witness for C6 at concrete inputs: a stored value, a declared-unset
default, an unknown id, and an id dropped by reconciliation. -/
theorem get_total_default_and_absent_witness :
    get { emptyEngine with store := [("a", WValue.num 7)] } "a" =
      .value (WValue.num 7) ∧
    get { emptyEngine with
      decls := [⟨"b", none, WValue.str "d", false⟩] } "b" =
      .value (WValue.str "d") ∧
    get emptyEngine "c" = .absent ∧
    get (reconcileState { emptyEngine with
      store := [("gone", WValue.num 1)] } []) "gone" = .absent :=
  ⟨(get_total_default_and_absent
      { emptyEngine with store := [("a", WValue.num 7)] } "a").1
      (WValue.num 7) rfl,
   (get_total_default_and_absent
      { emptyEngine with
        decls := [⟨"b", none, WValue.str "d", false⟩] }
      "b").2.1 ⟨"b", none, WValue.str "d", false⟩ rfl rfl,
   (get_total_default_and_absent emptyEngine "c").2.2.1 rfl rfl,
   (get_total_default_and_absent
      { emptyEngine with store := [("gone", WValue.num 1)] }
      "gone").2.2.2 [] rfl⟩

/-- Witness for C7 at a concrete input: the notification trace over a
change, a repeated change, and a change after submit. -/
theorem forms_data_changed_once_per_dirty_transition_witness :
    (recordChange emptyEngine "f1" "name" (.str "Ada")).dirtyEvents =
      emptyEngine.dirtyEvents ++ [("f1", true)] ∧
    (recordChange (recordChange emptyEngine "f1" "name" (.str "Ada"))
        "f1" "name" (.str "Eve")).dirtyEvents =
      (recordChange emptyEngine "f1" "name" (.str "Ada")).dirtyEvents ∧
    (recordChange (submit (recordChange emptyEngine "f1" "name"
        (.str "Ada")) "f1" "submit_btn") "f1" "name"
        (.str "Eve")).dirtyEvents =
      (submit (recordChange emptyEngine "f1" "name" (.str "Ada")) "f1"
        "submit_btn").dirtyEvents ++ [("f1", true)] :=
  ⟨(forms_data_changed_once_per_dirty_transition emptyEngine "f1" "name"
      "name" "submit_btn" (.str "Ada") (.str "Eve")).1 rfl,
   (forms_data_changed_once_per_dirty_transition emptyEngine "f1" "name"
      "name" "submit_btn" (.str "Ada") (.str "Eve")).2.1,
   (forms_data_changed_once_per_dirty_transition emptyEngine "f1" "name"
      "name" "submit_btn" (.str "Ada") (.str "Eve")).2.2⟩

end StreamlitWidgetState

namespace BaseButtonModel

/-- Witness for C9 at a concrete input: no `help` prop leaves the child
untouched. -/
theorem tooltip_identity_without_help_witness :
    BaseButtonTooltip (.text "go") none none false = .text "go" :=
  tooltip_identity_without_help (.text "go") none false none (Or.inl rfl)

end BaseButtonModel

namespace ChatInputModel

open StreamlitWidgetState

/-- Witness for C10 at a concrete input: an empty chat input submitted
against the fresh engine changes nothing. -/
theorem chat_input_suppresses_empty_submission_witness :
    chatInputSubmit emptyEngine { value := "" } "chat" none =
      (emptyEngine, { value := "" }) ∧
    (chatInputSubmit emptyEngine { value := "" } "chat" none).2.value =
      "" :=
  chat_input_suppresses_empty_submission emptyEngine { value := "" }
    "chat" none rfl

end ChatInputModel
